import Mathlib

/-!
# The decode superloop of `main.c`

A shallow embedding of `main` of the AVR128DA48 touch example:

```c
atmel_start_init();
init_led_driver();
led_reset();
while (1) {
    touch_process();
    if (measurement_done_touch == 1u) {
        measurement_done_touch = 0;
        led_decode_and_update();
    }
}
```

`main` owns no data of its own.  It reads and writes one volatile byte,
`measurement_done_touch`, and calls five functions whose bodies live in the
vendor drivers.  Those five functions are parameters of the model (`Env`);
everything `main` itself does (the order of the calls, the comparison with
`1u`, the store of `0`) is transcribed statement by statement.  Every call
and every access to the volatile byte is appended to a trace, so that claims
about order and about the number of calls are claims about that trace.
-/

namespace TouchExample

/-! ## Data model -/

/-- The part of the machine state the claims talk about: the completion flag
`measurement_done_touch` (a `uint8_t`, kept as a natural number and reduced
modulo 256 whenever `main` reads or writes it), the touch snapshot held by the
acquisition driver and the display state held by the LED driver. -/
structure World where
  measurement_done_touch : Nat
  touch : Nat
  led : Nat
deriving DecidableEq, Repr

/-- The five functions `main` calls. -/
inductive Fn where
  | atmel_start_init
  | init_led_driver
  | led_reset
  | touch_process
  | led_decode_and_update
deriving DecidableEq, Repr

/-- What `main` does that is visible from outside: a call (recorded together
with the world the callee finds on entry), a read of the volatile flag (with
the value read) and a write of the volatile flag (with the value stored). -/
inductive Event where
  | call (f : Fn) (entry : World)
  | read (v : Nat)
  | write (v : Nat)
deriving DecidableEq, Repr

/-- The collaborators of `main`.  The bodies of the five functions are not part
of `main.c`; each is an arbitrary transformer of the world.  The two functions
called inside the loop are indexed by the iteration in which the call is made,
so that they may behave differently from call to call (they keep state of
their own), and their effect includes whatever an interrupt does while they
run.  `between_test_and_clear i` is what an interrupt does, in iteration `i`,
after the flag has been read as `1` and before `main` stores `0`: the flag is
volatile because it is written from another context.  An interrupt after a
failed test is part of the next `touch_process` call, and one after the store
of `0` is part of `led_decode_and_update`. -/
structure Env where
  atmel_start_init : World → World
  init_led_driver : World → World
  led_reset : World → World
  touch_process : Nat → World → World
  led_decode_and_update : Nat → World → World
  between_test_and_clear : Nat → World → World

/-- The execution state: the world and the trace of events so far, oldest
event first. -/
structure State where
  world : World
  trace : List Event
deriving DecidableEq, Repr

/-! ## Statements of `main` -/

/-- A call of `f`: the event is logged with the world on entry, then the
callee transforms the world. -/
def call (f : Fn) (effect : World → World) (s : State) : State :=
  { world := effect s.world, trace := s.trace ++ [Event.call f s.world] }

/-- The value a read of the `uint8_t` flag yields. -/
def flag_value (w : World) : Nat :=
  w.measurement_done_touch % 256

/-- The volatile read in `measurement_done_touch == 1u`. -/
def read_flag (s : State) : Nat × State :=
  (flag_value s.world, { world := s.world, trace := s.trace ++ [Event.read (flag_value s.world)] })

/-- The volatile store `measurement_done_touch = v`. -/
def write_flag (v : Nat) (s : State) : State :=
  { world := { s.world with measurement_done_touch := v % 256 },
    trace := s.trace ++ [Event.write (v % 256)] }

/-- Activity of another context between two statements of `main`; it leaves no
event of `main` in the trace. -/
def interrupt (effect : World → World) (s : State) : State :=
  { world := effect s.world, trace := s.trace }

/-- The three calls before the loop (`main.c` lines 9 to 12). -/
def startup (env : Env) (s : State) : State :=
  let s1 := call Fn.atmel_start_init env.atmel_start_init s
  let s2 := call Fn.init_led_driver env.init_led_driver s1
  call Fn.led_reset env.led_reset s2

/-- One pass through the body of `while (1)` (`main.c` lines 16 to 21), in
iteration `i`. -/
def loop_body (env : Env) (i : Nat) (s : State) : State :=
  let s1 := call Fn.touch_process (env.touch_process i) s
  let r := read_flag s1
  if r.1 = 1 then
    let s2 := interrupt (env.between_test_and_clear i) r.2
    let s3 := write_flag 0 s2
    call Fn.led_decode_and_update (env.led_decode_and_update i) s3
  else
    r.2

/-- How an execution of `main` observed for a bounded number of iterations can
stand: it has left the loop and `main` has returned, or it is still inside the
loop. -/
inductive Outcome where
  | returned (s : State)
  | running (s : State)
deriving DecidableEq, Repr

/-- The loop `while (1) { ... }`, observed for `fuel` iterations starting with
iteration `i`.  The controlling expression is the constant `1`; the body has
no `break` and no `return`. -/
def while_loop (env : Env) : Nat → Nat → State → Outcome
  | 0, _, s => Outcome.running s
  | fuel + 1, i, s =>
    if (1 : Nat) ≠ 0 then while_loop env fuel (i + 1) (loop_body env i s)
    else Outcome.returned s

/-- The function `main`, observed for `fuel` loop iterations, started in world
`w` with an empty trace. -/
def main (env : Env) (w : World) (fuel : Nat) : Outcome :=
  while_loop env fuel 0 (startup env { world := w, trace := [] })

/-! ## Derived observations -/

/-- The state after `n` iterations of the loop body, the first of which has
index `i`. -/
def iterate_from (env : Env) : Nat → Nat → State → State
  | 0, _, s => s
  | n + 1, i, s => iterate_from env n (i + 1) (loop_body env i s)

/-- The state of `main` after the start-up calls and `n` complete iterations. -/
def run (env : Env) (w : World) (n : Nat) : State :=
  iterate_from env n 0 (startup env { world := w, trace := [] })

/-- The world at the start of iteration `i` of the loop. -/
def world_at (env : Env) (w : World) (i : Nat) : World :=
  (run env w i).world

/-- The events iteration `i` appends when it starts in world `w`. -/
def iteration_events (env : Env) (i : Nat) (w : World) : List Event :=
  (loop_body env i { world := w, trace := [] }).trace

/-- The world iteration `i` leaves when it starts in world `w`. -/
def iteration_world (env : Env) (i : Nat) (w : World) : World :=
  (loop_body env i { world := w, trace := [] }).world

/-- The flag value the test of iteration `i` reads when the iteration starts
in world `w`: the value after `touch_process` has returned. -/
def tested_flag (env : Env) (i : Nat) (w : World) : Nat :=
  flag_value (env.touch_process i w)

/-- The function an event calls, if it is a call. -/
def Event.callee : Event → Option Fn
  | Event.call f _ => some f
  | _ => none

/-- The sequence of called functions in a trace. -/
def calls (t : List Event) : List Fn :=
  t.filterMap Event.callee

/-- The number of calls of `f` in a trace. -/
def call_count (f : Fn) (t : List Event) : Nat :=
  (calls t).count f

/-- The touch snapshot a call of `led_decode_and_update` finds on entry. -/
def Event.decoded : Event → Option Nat
  | Event.call Fn.led_decode_and_update e => some e.touch
  | _ => none

/-- The touch snapshots found on entry by the calls of `led_decode_and_update`
in a trace, in order. -/
def decoded_touch (t : List Event) : List Nat :=
  t.filterMap Event.decoded

/-- The value an event stores in the flag, if it is a write. -/
def Event.written : Event → Option Nat
  | Event.write v => some v
  | _ => none

/-- The values `main` stores in the flag in a trace, in order. -/
def flag_writes (t : List Event) : List Nat :=
  t.filterMap Event.written

/-- The world `led_decode_and_update` finds on entry in iteration `i`, when the
iteration starts in world `w` and the test succeeds: `touch_process` has run,
another context may have run between the test and the clear, and `main` has
stored `0` in the flag. -/
def decode_entry (env : Env) (i : Nat) (w : World) : World :=
  { env.between_test_and_clear i (env.touch_process i w) with measurement_done_touch := 0 % 256 }

/-- Whether an event is a call of `led_decode_and_update`. -/
def Event.is_decode_call (e : Event) : Bool :=
  e.callee = some Fn.led_decode_and_update

/-- Whether an event is a write of the flag. -/
def Event.is_flag_write (e : Event) : Bool :=
  e.written.isSome

/-- Whether an event is a read of the flag. -/
def Event.is_flag_read : Event → Bool
  | Event.read _ => true
  | _ => false

/-- The iterations among the first `n` in which `led_decode_and_update` is
called, in order, for the execution of `main` started in world `w`. -/
def decode_iterations (env : Env) (w : World) (n : Nat) : List Nat :=
  (List.range n).filter fun i =>
    decide (Fn.led_decode_and_update ∈ calls (iteration_events env i (world_at env w i)))

/-- Modelled from the spec: the completion event of the acquisition driver,
whose code is not part of `main.c`.  On finishing a measurement cycle the
producer publishes the snapshot `t` and sets the completion flag to 1; it
touches nothing else. -/
def producer_set (t : Nat) (w : World) : World :=
  { w with measurement_done_touch := 1, touch := t }

/-- An environment in which no collaborator changes anything. -/
def Env.idle : Env where
  atmel_start_init := id
  init_led_driver := id
  led_reset := id
  touch_process := fun _ w => w
  led_decode_and_update := fun _ w => w
  between_test_and_clear := fun _ w => w

/-- An LED driver that shows the current touch snapshot, and an acquisition
driver that completes a measurement cycle in every even iteration. -/
def Env.alternating : Env where
  atmel_start_init := id
  init_led_driver := id
  led_reset := fun w => { w with led := 0 }
  touch_process := fun i w => if i % 2 = 0 then producer_set (10 + i) w else w
  led_decode_and_update := fun _ w => { w with led := w.touch }
  between_test_and_clear := fun _ w => w

/-- An acquisition driver that completes one cycle in iteration 0 and a second
one, from its interrupt, while `led_decode_and_update` runs in iteration 0. -/
def Env.set_during_decode : Env where
  atmel_start_init := id
  init_led_driver := id
  led_reset := fun w => { w with led := 0 }
  touch_process := fun i w => if i = 0 then producer_set 3 w else w
  led_decode_and_update := fun i w =>
    if i = 0 then producer_set 5 { w with led := w.touch } else { w with led := w.touch }
  between_test_and_clear := fun _ w => w

/-- An acquisition driver that completes two cycles before the first test of
the loop and none afterwards. -/
def Env.double_set : Env where
  atmel_start_init := id
  init_led_driver := id
  led_reset := fun w => { w with led := 0 }
  touch_process := fun i w => if i = 0 then producer_set 2 (producer_set 1 w) else w
  led_decode_and_update := fun _ w => { w with led := w.touch }
  between_test_and_clear := fun _ w => w

/-! # Lemmas -/


/-! ## The loop body, unfolded -/

theorem flag_value_lt (w : World) : flag_value w < 256 :=
  Nat.mod_lt _ (by decide)

theorem loop_body_eq (env : Env) (i : Nat) (s : State) :
    loop_body env i s =
      { world := iteration_world env i s.world,
        trace := s.trace ++ iteration_events env i s.world } := by
  unfold iteration_world iteration_events loop_body
  by_cases h : flag_value (env.touch_process i s.world) = 1
  · simp [call, read_flag, write_flag, interrupt, h]
  · simp [call, read_flag, write_flag, interrupt, h]

theorem iteration_events_set (env : Env) (i : Nat) (w : World)
    (h : tested_flag env i w = 1) :
    iteration_events env i w =
      [Event.call Fn.touch_process w, Event.read 1, Event.write 0,
        Event.call Fn.led_decode_and_update (decode_entry env i w)] := by
  unfold tested_flag at h
  simp [iteration_events, loop_body, call, read_flag, write_flag, interrupt, h, decode_entry]

theorem iteration_events_unset (env : Env) (i : Nat) (w : World)
    (h : tested_flag env i w ≠ 1) :
    iteration_events env i w =
      [Event.call Fn.touch_process w, Event.read (tested_flag env i w)] := by
  unfold tested_flag at h
  simp [iteration_events, loop_body, call, read_flag, h, tested_flag]

theorem iteration_world_set (env : Env) (i : Nat) (w : World)
    (h : tested_flag env i w = 1) :
    iteration_world env i w = env.led_decode_and_update i (decode_entry env i w) := by
  unfold tested_flag at h
  simp [iteration_world, loop_body, call, read_flag, write_flag, interrupt, h, decode_entry]

theorem iteration_world_unset (env : Env) (i : Nat) (w : World)
    (h : tested_flag env i w ≠ 1) :
    iteration_world env i w = env.touch_process i w := by
  unfold tested_flag at h
  simp [iteration_world, loop_body, call, read_flag, h]

theorem flag_value_decode_entry (env : Env) (i : Nat) (w : World) :
    flag_value (decode_entry env i w) = 0 := by
  simp [flag_value, decode_entry]

/-! ## Iterating the loop body -/

theorem iterate_from_succ (env : Env) (n i : Nat) (s : State) :
    iterate_from env (n + 1) i s = loop_body env (i + n) (iterate_from env n i s) := by
  induction n generalizing i s with
  | zero => simp [iterate_from]
  | succ k ih =>
    have h := ih (i + 1) (loop_body env i s)
    rw [show i + 1 + k = i + (k + 1) by omega] at h
    exact h

theorem while_loop_running (env : Env) (fuel i : Nat) (s : State) :
    while_loop env fuel i s = Outcome.running (iterate_from env fuel i s) := by
  induction fuel generalizing i s with
  | zero => rfl
  | succ k ih => simp [while_loop, iterate_from, ih]

theorem run_succ (env : Env) (w : World) (n : Nat) :
    run env w (n + 1) = loop_body env n (run env w n) := by
  unfold run
  rw [iterate_from_succ, Nat.zero_add]

theorem run_trace_succ (env : Env) (w : World) (n : Nat) :
    (run env w (n + 1)).trace =
      (run env w n).trace ++ iteration_events env n (world_at env w n) := by
  rw [run_succ, loop_body_eq]
  rfl

theorem world_at_succ (env : Env) (w : World) (n : Nat) :
    world_at env w (n + 1) = iteration_world env n (world_at env w n) := by
  unfold world_at
  rw [run_succ, loop_body_eq]

theorem run_zero_trace (env : Env) (w : World) :
    (run env w 0).trace =
      [Event.call Fn.atmel_start_init w,
        Event.call Fn.init_led_driver (env.atmel_start_init w),
        Event.call Fn.led_reset (env.init_led_driver (env.atmel_start_init w))] := by
  simp [run, iterate_from, startup, call]

theorem iterate_from_trace_succ (env : Env) (n i : Nat) (s : State) :
    (iterate_from env (n + 1) i s).trace =
      (iterate_from env n i s).trace ++
        iteration_events env (i + n) (iterate_from env n i s).world := by
  rw [iterate_from_succ, loop_body_eq]

theorem iterate_from_world_succ (env : Env) (n i : Nat) (s : State) :
    (iterate_from env (n + 1) i s).world =
      iteration_world env (i + n) (iterate_from env n i s).world := by
  rw [iterate_from_succ, loop_body_eq]

/-! ## Observations on traces -/

theorem call_count_append (f : Fn) (t u : List Event) :
    call_count f (t ++ u) = call_count f t + call_count f u := by
  simp [call_count, calls, List.filterMap_append, List.count_append]

theorem calls_append (t u : List Event) : calls (t ++ u) = calls t ++ calls u := by
  simp [calls, List.filterMap_append]

theorem flag_writes_append (t u : List Event) :
    flag_writes (t ++ u) = flag_writes t ++ flag_writes u := by
  simp [flag_writes, List.filterMap_append]

theorem decoded_touch_append (t u : List Event) :
    decoded_touch (t ++ u) = decoded_touch t ++ decoded_touch u := by
  simp [decoded_touch, List.filterMap_append]

theorem calls_iteration_set (env : Env) (i : Nat) (w : World)
    (h : tested_flag env i w = 1) :
    calls (iteration_events env i w) = [Fn.touch_process, Fn.led_decode_and_update] := by
  rw [iteration_events_set env i w h]
  rfl

theorem calls_iteration_unset (env : Env) (i : Nat) (w : World)
    (h : tested_flag env i w ≠ 1) :
    calls (iteration_events env i w) = [Fn.touch_process] := by
  rw [iteration_events_unset env i w h]
  rfl

theorem decode_called_iff (env : Env) (i : Nat) (w : World) :
    Fn.led_decode_and_update ∈ calls (iteration_events env i w) ↔ tested_flag env i w = 1 := by
  by_cases h : tested_flag env i w = 1
  · simp [calls_iteration_set env i w h, h]
  · simp [calls_iteration_unset env i w h, h]

/-! ## Counting calls over a run -/

theorem call_count_touch_process_iteration (env : Env) (i : Nat) (w : World) :
    call_count Fn.touch_process (iteration_events env i w) = 1 := by
  by_cases h : tested_flag env i w = 1
  · rw [iteration_events_set env i w h]
    rfl
  · rw [iteration_events_unset env i w h]
    rfl

theorem call_count_decode_iteration_le (env : Env) (i : Nat) (w : World) :
    call_count Fn.led_decode_and_update (iteration_events env i w) ≤ 1 := by
  by_cases h : tested_flag env i w = 1
  · rw [iteration_events_set env i w h]
    exact Nat.le_of_eq rfl
  · rw [iteration_events_unset env i w h]
    exact Nat.zero_le 1

theorem call_count_touch_process_run (env : Env) (w : World) (n : Nat) :
    call_count Fn.touch_process (run env w n).trace = n := by
  induction n with
  | zero =>
    rw [run_zero_trace]
    rfl
  | succ k ih =>
    rw [run_trace_succ, call_count_append, ih, call_count_touch_process_iteration]

theorem call_count_decode_run_le (env : Env) (w : World) (n : Nat) :
    call_count Fn.led_decode_and_update (run env w n).trace ≤ n := by
  induction n with
  | zero =>
    rw [run_zero_trace]
    exact Nat.le_of_eq rfl
  | succ k ih =>
    rw [run_trace_succ, call_count_append]
    have h := call_count_decode_iteration_le env k (world_at env w k)
    omega

theorem calls_iteration_mem (env : Env) (i : Nat) (w : World) (f : Fn)
    (hf : f ∈ calls (iteration_events env i w)) :
    f = Fn.touch_process ∨ f = Fn.led_decode_and_update := by
  by_cases h : tested_flag env i w = 1
  · rw [calls_iteration_set env i w h] at hf
    simpa using hf
  · rw [calls_iteration_unset env i w h] at hf
    simp at hf
    exact Or.inl hf

theorem calls_run (env : Env) (w : World) (n : Nat) :
    ∃ rest, calls (run env w n).trace =
        [Fn.atmel_start_init, Fn.init_led_driver, Fn.led_reset] ++ rest
      ∧ ∀ f ∈ rest, f = Fn.touch_process ∨ f = Fn.led_decode_and_update := by
  induction n with
  | zero =>
    refine ⟨[], ?_, ?_⟩
    · rw [run_zero_trace]
      rfl
    · intro f hf
      simp at hf
  | succ k ih =>
    obtain ⟨rest, hrest, hmem⟩ := ih
    refine ⟨rest ++ calls (iteration_events env k (world_at env w k)), ?_, ?_⟩
    · rw [run_trace_succ, calls_append, hrest, List.append_assoc]
    · intro f hf
      rcases List.mem_append.mp hf with h | h
      · exact hmem f h
      · exact calls_iteration_mem env k (world_at env w k) f h

/-! ## Iterations in which the flag is not set -/

theorem quiet_iterations (env : Env) (c m i : Nat) (s : State) (hc : c ≠ 1)
    (hs : flag_value s.world = c)
    (hq : ∀ j u, i ≤ j → j < i + m → flag_value u = c →
      flag_value (env.touch_process j u) = c) :
    flag_value (iterate_from env m i s).world = c
      ∧ call_count Fn.led_decode_and_update (iterate_from env m i s).trace =
          call_count Fn.led_decode_and_update s.trace
      ∧ flag_writes (iterate_from env m i s).trace = flag_writes s.trace := by
  induction m with
  | zero => exact ⟨hs, rfl, rfl⟩
  | succ k ih =>
    obtain ⟨h1, h2, h3⟩ := ih (fun j u hj hjk hu => hq j u hj (by omega) hu)
    have ht : tested_flag env (i + k) (iterate_from env k i s).world = c :=
      hq (i + k) _ (by omega) (by omega) h1
    have hne : tested_flag env (i + k) (iterate_from env k i s).world ≠ 1 := by
      rw [ht]
      exact hc
    refine ⟨?_, ?_, ?_⟩
    · rw [iterate_from_world_succ, iteration_world_unset env _ _ hne]
      exact ht
    · rw [iterate_from_trace_succ, call_count_append, iteration_events_unset env _ _ hne, h2]
      rfl
    · rw [iterate_from_trace_succ, flag_writes_append, iteration_events_unset env _ _ hne, h3]
      exact List.append_nil _

/-! ## One completion before each test -/

theorem decode_iterations_succ (env : Env) (w : World) (n : Nat) :
    decode_iterations env w (n + 1) =
      decode_iterations env w n ++
        if tested_flag env n (world_at env w n) = 1 then [n] else [] := by
  unfold decode_iterations
  rw [List.range_succ, List.filter_append]
  congr 1
  by_cases h : tested_flag env n (world_at env w n) = 1
  · simp [List.filter_cons, decode_called_iff, h]
  · simp [List.filter_cons, decode_called_iff, h]

theorem completions_are_decoded (env : Env) (w0 : World) (sets : Nat → Bool) (n : Nat)
    (hstart : flag_value (world_at env w0 0) = 0)
    (hsets : ∀ i, i < n → flag_value (world_at env w0 i) = 0 →
      tested_flag env i (world_at env w0 i) = if sets i then 1 else 0)
    (hdecode : ∀ i, i < n →
      flag_value (env.led_decode_and_update i (decode_entry env i (world_at env w0 i))) =
        flag_value (decode_entry env i (world_at env w0 i)))
    (hbetween : ∀ i, i < n →
      (env.between_test_and_clear i (env.touch_process i (world_at env w0 i))).touch =
        (env.touch_process i (world_at env w0 i)).touch) :
    ∀ m, m ≤ n →
      flag_value (world_at env w0 m) = 0
        ∧ call_count Fn.led_decode_and_update (run env w0 m).trace =
            call_count Fn.led_decode_and_update (run env w0 0).trace +
              ((List.range m).filter sets).length
        ∧ decode_iterations env w0 m = (List.range m).filter sets
        ∧ decoded_touch (run env w0 m).trace =
            decoded_touch (run env w0 0).trace ++
              ((List.range m).filter sets).map
                (fun i => (env.touch_process i (world_at env w0 i)).touch) := by
  intro m
  induction m with
  | zero =>
    intro _
    exact ⟨hstart, rfl, rfl, by simp⟩
  | succ k ih =>
    intro hk
    obtain ⟨h0, hc, hi, ht⟩ := ih (by omega)
    have hflag := hsets k (by omega) h0
    rw [world_at_succ, run_trace_succ, call_count_append, decoded_touch_append,
      decode_iterations_succ, List.range_succ, List.filter_append, hc, hi, ht]
    cases hsk : sets k with
    | true =>
      rw [hsk] at hflag
      simp only [if_true] at hflag
      rw [iteration_world_set env k _ hflag, iteration_events_set env k _ hflag, hflag]
      refine ⟨?_, ?_, ?_, ?_⟩
      · rw [hdecode k (by omega)]
        exact flag_value_decode_entry env k _
      · simp [List.filter_cons, hsk, call_count, calls, Event.callee, Nat.add_assoc]
      · simp [List.filter_cons, hsk]
      · have hb := hbetween k (by omega)
        simp [List.filter_cons, hsk, decoded_touch, Event.decoded, decode_entry, hb]
    | false =>
      rw [hsk] at hflag
      simp only [Bool.false_eq_true, if_false] at hflag
      have hne : tested_flag env k (world_at env w0 k) ≠ 1 := by omega
      rw [iteration_world_unset env k _ hne, iteration_events_unset env k _ hne]
      refine ⟨hflag, ?_, ?_, ?_⟩
      · simp [List.filter_cons, hsk, call_count, calls, Event.callee]
      · simp [List.filter_cons, hsk, hne]
      · simp [List.filter_cons, hsk, decoded_touch, Event.decoded]

/-! # The claims -/

/-- C1: in an iteration whose test reads 1 (after `touch_process` has
returned) the loop stores 0 in the flag and then calls
`led_decode_and_update`, exactly once and after the store; in any
iteration `led_decode_and_update` is called only if the test read 1; and when
the iteration is iteration `i` of an execution of `main`, these four events
are what it adds to the trace of `main`. -/
theorem set_flag_is_cleared_then_decoded (env : Env) (i : Nat) (w : World)
    (h : tested_flag env i w = 1) :
    iteration_events env i w =
        [Event.call Fn.touch_process w, Event.read 1, Event.write 0,
          Event.call Fn.led_decode_and_update (decode_entry env i w)]
      ∧ flag_writes (iteration_events env i w) = [0]
      ∧ call_count Fn.led_decode_and_update (iteration_events env i w) = 1
      ∧ (∀ j u, Fn.led_decode_and_update ∈ calls (iteration_events env j u) →
          tested_flag env j u = 1)
      ∧ ∀ w0, world_at env w0 i = w →
          (run env w0 (i + 1)).trace =
            (run env w0 i).trace ++
              [Event.call Fn.touch_process w, Event.read 1, Event.write 0,
                Event.call Fn.led_decode_and_update (decode_entry env i w)] := by
  refine ⟨iteration_events_set env i w h, ?_, ?_, ?_, ?_⟩
  · rw [iteration_events_set env i w h]
    rfl
  · rw [iteration_events_set env i w h]
    rfl
  · intro j u hj
    exact (decode_called_iff env j u).mp hj
  · intro w0 hw0
    rw [run_trace_succ, hw0, iteration_events_set env i w h]

theorem set_flag_is_cleared_then_decoded_witness :
    tested_flag Env.alternating 0 ⟨0, 4, 9⟩ = 1
      ∧ iteration_events Env.alternating 0 ⟨0, 4, 9⟩ =
          [Event.call Fn.touch_process ⟨0, 4, 9⟩, Event.read 1, Event.write 0,
            Event.call Fn.led_decode_and_update ⟨0, 10, 9⟩]
      ∧ call_count Fn.led_decode_and_update (iteration_events Env.alternating 0 ⟨0, 4, 9⟩) = 1 :=
  have h := set_flag_is_cleared_then_decoded Env.alternating 0 ⟨0, 4, 9⟩ (by decide)
  ⟨by decide, h.1, h.2.2.1⟩

/-- C2: in an iteration whose test reads 0, `led_decode_and_update` is not
called, the loop does not write the flag, the world at the end of the
iteration is the world at the test (so the LED state is the one at the test
and the flag still reads 0), and when `touch_process` leaves the LED state
alone the LED state is the one the iteration started with; as iteration `i`
of an execution of `main` it adds only the call of `touch_process` and the
read of the flag to the trace. -/
theorem unset_flag_iteration_is_a_no_op (env : Env) (i : Nat) (w : World)
    (h : tested_flag env i w = 0)
    (hled : (env.touch_process i w).led = w.led) :
    call_count Fn.led_decode_and_update (iteration_events env i w) = 0
      ∧ flag_writes (iteration_events env i w) = []
      ∧ iteration_world env i w = env.touch_process i w
      ∧ (iteration_world env i w).led = (env.touch_process i w).led
      ∧ (iteration_world env i w).led = w.led
      ∧ flag_value (iteration_world env i w) = 0
      ∧ ∀ w0, world_at env w0 i = w →
          (run env w0 (i + 1)).trace =
              (run env w0 i).trace ++ [Event.call Fn.touch_process w, Event.read 0]
            ∧ world_at env w0 (i + 1) = env.touch_process i w := by
  have hne : tested_flag env i w ≠ 1 := by omega
  have hw := iteration_world_unset env i w hne
  refine ⟨?_, ?_, hw, by rw [hw], by rw [hw, hled], ?_, ?_⟩
  · rw [iteration_events_unset env i w hne]
    rfl
  · rw [iteration_events_unset env i w hne]
    rfl
  · rw [hw]
    exact h
  · intro w0 hw0
    rw [run_trace_succ, world_at_succ, hw0, iteration_events_unset env i w hne, h, hw]
    exact ⟨rfl, rfl⟩

theorem unset_flag_iteration_is_a_no_op_witness :
    tested_flag Env.alternating 1 ⟨0, 4, 9⟩ = 0
      ∧ call_count Fn.led_decode_and_update (iteration_events Env.alternating 1 ⟨0, 4, 9⟩) = 0
      ∧ (iteration_world Env.alternating 1 ⟨0, 4, 9⟩).led = 9
      ∧ flag_value (iteration_world Env.alternating 1 ⟨0, 4, 9⟩) = 0 :=
  have h := unset_flag_iteration_is_a_no_op Env.alternating 1 ⟨0, 4, 9⟩ (by decide) (by decide)
  ⟨by decide, h.1, h.2.2.2.2.1, h.2.2.2.2.2.1⟩

/-- C3, as stated, fails: with a set flag the claim puts the call of
`led_decode_and_update` before the store of 0.  In the iteration below the
test reads 1, the store of 0 is event 2 and the call is event 3, and the
callee already finds the flag at 0. -/
theorem decode_then_clear_counterexample :
    tested_flag Env.idle 0 ⟨1, 7, 0⟩ = 1
      ∧ ¬ ((iteration_events Env.idle 0 ⟨1, 7, 0⟩).findIdx Event.is_decode_call <
            (iteration_events Env.idle 0 ⟨1, 7, 0⟩).findIdx Event.is_flag_write)
      ∧ iteration_events Env.idle 0 ⟨1, 7, 0⟩ =
          [Event.call Fn.touch_process ⟨1, 7, 0⟩, Event.read 1, Event.write 0,
            Event.call Fn.led_decode_and_update ⟨0, 7, 0⟩] := by
  decide

/-- C3, amended: in an iteration whose test reads 1 the order is read the
flag, store 0 in the flag, call `led_decode_and_update`; every call of
`led_decode_and_update` in the iteration finds the flag already at 0. -/
theorem read_then_clear_then_decode (env : Env) (i : Nat) (w : World)
    (h : tested_flag env i w = 1) :
    (iteration_events env i w).findIdx Event.is_flag_read <
        (iteration_events env i w).findIdx Event.is_flag_write
      ∧ (iteration_events env i w).findIdx Event.is_flag_write <
        (iteration_events env i w).findIdx Event.is_decode_call
      ∧ (iteration_events env i w).findIdx Event.is_decode_call <
        (iteration_events env i w).length
      ∧ ∀ e, Event.call Fn.led_decode_and_update e ∈ iteration_events env i w →
          flag_value e = 0 := by
  rw [iteration_events_set env i w h]
  refine ⟨?_, ?_, ?_, ?_⟩
  · simp [List.findIdx_cons, Event.is_flag_read, Event.is_flag_write, Event.written]
  · simp [List.findIdx_cons, Event.is_flag_write, Event.is_decode_call, Event.written,
      Event.callee]
  · simp [List.findIdx_cons, Event.is_decode_call, Event.callee]
  intro e he
  simp at he
  rw [he]
  exact flag_value_decode_entry env i w

theorem read_then_clear_then_decode_witness :
    tested_flag Env.idle 0 ⟨1, 7, 0⟩ = 1
      ∧ (iteration_events Env.idle 0 ⟨1, 7, 0⟩).findIdx Event.is_flag_write <
          (iteration_events Env.idle 0 ⟨1, 7, 0⟩).findIdx Event.is_decode_call :=
  ⟨by decide, (read_then_clear_then_decode Env.idle 0 ⟨1, 7, 0⟩ (by decide)).2.1⟩

/-- C7: in every execution of `main`, observed after any number `n` of
iterations, the calls are `atmel_start_init`, `init_led_driver`, `led_reset`
in this order, followed only by calls of `touch_process` and
`led_decode_and_update`; so each of the three is called exactly once, and what
the execution has called after its first `k` calls, for any `k`, is the first
`k` of the three start-up calls followed by loop calls only. -/
theorem startup_calls_come_first_and_once (env : Env) (w : World) (n k : Nat) :
    ∃ rest, calls (run env w n).trace =
          [Fn.atmel_start_init, Fn.init_led_driver, Fn.led_reset] ++ rest
      ∧ (∀ f ∈ rest, f = Fn.touch_process ∨ f = Fn.led_decode_and_update)
      ∧ (calls (run env w n).trace).take k =
          [Fn.atmel_start_init, Fn.init_led_driver, Fn.led_reset].take k ++ rest.take (k - 3)
      ∧ call_count Fn.atmel_start_init (run env w n).trace = 1
      ∧ call_count Fn.init_led_driver (run env w n).trace = 1
      ∧ call_count Fn.led_reset (run env w n).trace = 1 := by
  obtain ⟨rest, hrest, hmem⟩ := calls_run env w n
  have hcount : ∀ g : Fn, g ≠ Fn.touch_process → g ≠ Fn.led_decode_and_update →
      rest.count g = 0 := by
    intro g h1 h2
    apply List.count_eq_zero.mpr
    intro hg
    rcases hmem g hg with h | h
    · exact h1 h
    · exact h2 h
  refine ⟨rest, hrest, hmem, ?_, ?_, ?_, ?_⟩
  · rw [hrest, List.take_append_eq_append_take]
    rfl
  · unfold call_count
    rw [hrest, List.count_append, hcount _ (by decide) (by decide)]
    rfl
  · unfold call_count
    rw [hrest, List.count_append, hcount _ (by decide) (by decide)]
    rfl
  · unfold call_count
    rw [hrest, List.count_append, hcount _ (by decide) (by decide)]
    rfl

/-- C8: every iteration begins with its one call of `touch_process`, followed
by the read of the flag, whatever the flag holds; after `n` iterations
`touch_process` has been called `n` times and `led_decode_and_update` at most
`n` times. -/
theorem touch_process_once_per_iteration (env : Env) (w u : World) (n i : Nat) :
    (∃ rest, iteration_events env i u =
          Event.call Fn.touch_process u :: Event.read (tested_flag env i u) :: rest
        ∧ call_count Fn.touch_process rest = 0)
      ∧ call_count Fn.touch_process (iteration_events env i u) = 1
      ∧ call_count Fn.touch_process (run env w n).trace = n
      ∧ call_count Fn.led_decode_and_update (run env w n).trace ≤ n := by
  refine ⟨?_, call_count_touch_process_iteration env i u,
    call_count_touch_process_run env w n, call_count_decode_run_le env w n⟩
  by_cases h : tested_flag env i u = 1
  · refine ⟨[Event.write 0, Event.call Fn.led_decode_and_update (decode_entry env i u)], ?_, rfl⟩
    rw [iteration_events_set env i u h, h]
  · exact ⟨[], iteration_events_unset env i u h, rfl⟩

/-- C9: `main` does not return: observed for any number `n` of iterations it is
still inside the loop, having completed exactly `n` iterations, and iteration
`n + 1` runs as well; that iteration is either idle (call `touch_process`,
read a flag other than 1) or idle, decoding and idle again (call
`touch_process`, read 1, store 0, call `led_decode_and_update`). -/
theorem superloop_never_exits (env : Env) (w : World) (n : Nat) :
    main env w n = Outcome.running (run env w n)
      ∧ (∀ s, main env w n ≠ Outcome.returned s)
      ∧ main env w (n + 1) = Outcome.running (loop_body env n (run env w n))
      ∧ (run env w (n + 1)).trace =
          (run env w n).trace ++ iteration_events env n (world_at env w n)
      ∧ call_count Fn.touch_process (run env w (n + 1)).trace = n + 1
      ∧ ((tested_flag env n (world_at env w n) ≠ 1
            ∧ iteration_events env n (world_at env w n) =
              [Event.call Fn.touch_process (world_at env w n),
                Event.read (tested_flag env n (world_at env w n))])
          ∨ (tested_flag env n (world_at env w n) = 1
            ∧ iteration_events env n (world_at env w n) =
              [Event.call Fn.touch_process (world_at env w n), Event.read 1, Event.write 0,
                Event.call Fn.led_decode_and_update
                  (decode_entry env n (world_at env w n))])) := by
  have hmain : ∀ m, main env w m = Outcome.running (run env w m) := by
    intro m
    exact while_loop_running env m 0 _
  refine ⟨hmain n, ?_, ?_, run_trace_succ env w n,
    call_count_touch_process_run env w (n + 1), ?_⟩
  · intro s hs
    rw [hmain n] at hs
    cases hs
  · rw [hmain (n + 1), run_succ]
  · by_cases h : tested_flag env n (world_at env w n) = 1
    · exact Or.inr ⟨h, iteration_events_set env n _ h⟩
    · exact Or.inl ⟨h, iteration_events_unset env n _ h⟩

/-- C4: let the loop start with the flag at 0, let `sets i` say whether the
producer sets the flag to 1 before the test of iteration `i` (it does so while
the flag is 0), and let nothing else write the flag: `touch_process` leaves a
0 flag at 0 when there is no set, `led_decode_and_update` returns the flag as
it found it, and nothing changes the touch snapshot between the test and the
clear.  Then in `n` iterations `led_decode_and_update` is called exactly as
often as there are sets, the iterations with a call are the iterations with a
set, in the same order, and the k-th call finds the touch snapshot that
`touch_process` left in the iteration of the k-th set. -/
theorem one_decode_per_completion (env : Env) (w0 : World) (sets : Nat → Bool) (n : Nat)
    (hstart : flag_value (world_at env w0 0) = 0)
    (hsets : ∀ i, i < n → flag_value (world_at env w0 i) = 0 →
      tested_flag env i (world_at env w0 i) = if sets i then 1 else 0)
    (hdecode : ∀ i, i < n →
      flag_value (env.led_decode_and_update i (decode_entry env i (world_at env w0 i))) =
        flag_value (decode_entry env i (world_at env w0 i)))
    (hbetween : ∀ i, i < n →
      (env.between_test_and_clear i (env.touch_process i (world_at env w0 i))).touch =
        (env.touch_process i (world_at env w0 i)).touch) :
    call_count Fn.led_decode_and_update (run env w0 n).trace =
        ((List.range n).filter sets).length
      ∧ decode_iterations env w0 n = (List.range n).filter sets
      ∧ decoded_touch (run env w0 n).trace =
          ((List.range n).filter sets).map
            (fun i => (env.touch_process i (world_at env w0 i)).touch) := by
  obtain ⟨_, hc, hi, ht⟩ :=
    completions_are_decoded env w0 sets n hstart hsets hdecode hbetween n (Nat.le_refl n)
  have h0 : call_count Fn.led_decode_and_update (run env w0 0).trace = 0 := by
    rw [run_zero_trace]
    rfl
  have h1 : decoded_touch (run env w0 0).trace = [] := by
    rw [run_zero_trace]
    rfl
  rw [h0, Nat.zero_add] at hc
  rw [h1, List.nil_append] at ht
  exact ⟨hc, hi, ht⟩

theorem one_decode_per_completion_witness :
    call_count Fn.led_decode_and_update (run Env.alternating ⟨0, 0, 0⟩ 4).trace = 2
      ∧ decode_iterations Env.alternating ⟨0, 0, 0⟩ 4 = [0, 2]
      ∧ decoded_touch (run Env.alternating ⟨0, 0, 0⟩ 4).trace = [10, 12] :=
  have h := one_decode_per_completion Env.alternating ⟨0, 0, 0⟩ (fun i => i % 2 == 0) 4
    (by decide) (by decide) (by decide) (by decide)
  ⟨h.1, h.2.1, h.2.2⟩

/-- C5: let the test of iteration `i` read 1, so that the loop stores 0 and
calls `led_decode_and_update`; let the producer set the flag to 1 while that
call runs, and let `touch_process` of the next iteration return the flag as it
found it.  Then the store of 0 is the last thing the loop does before the
call, the flag reads 1 at the end of iteration `i`, the test of iteration
`i + 1` reads 1, and iteration `i + 1` calls `led_decode_and_update` once. -/
theorem set_during_decode_is_seen_next (env : Env) (i : Nat) (w : World)
    (hobserved : tested_flag env i w = 1)
    (hset : flag_value (env.led_decode_and_update i (decode_entry env i w)) = 1)
    (hquiet : flag_value (env.touch_process (i + 1) (iteration_world env i w)) =
      flag_value (iteration_world env i w)) :
    iteration_events env i w =
        [Event.call Fn.touch_process w, Event.read 1, Event.write 0,
          Event.call Fn.led_decode_and_update (decode_entry env i w)]
      ∧ flag_value (decode_entry env i w) = 0
      ∧ flag_value (iteration_world env i w) = 1
      ∧ tested_flag env (i + 1) (iteration_world env i w) = 1
      ∧ call_count Fn.led_decode_and_update
          (iteration_events env (i + 1) (iteration_world env i w)) = 1 := by
  have hend : flag_value (iteration_world env i w) = 1 := by
    rw [iteration_world_set env i w hobserved]
    exact hset
  have hnext : tested_flag env (i + 1) (iteration_world env i w) = 1 := by
    unfold tested_flag
    rw [hquiet]
    exact hend
  refine ⟨iteration_events_set env i w hobserved, flag_value_decode_entry env i w, hend,
    hnext, ?_⟩
  rw [iteration_events_set env _ _ hnext]
  rfl

theorem set_during_decode_is_seen_next_witness :
    flag_value (iteration_world Env.set_during_decode 0 ⟨0, 0, 0⟩) = 1
      ∧ call_count Fn.led_decode_and_update
          (iteration_events Env.set_during_decode 1
            (iteration_world Env.set_during_decode 0 ⟨0, 0, 0⟩)) = 1 :=
  have h := set_during_decode_is_seen_next Env.set_during_decode 0 ⟨0, 0, 0⟩
    (by decide) (by decide) (by decide)
  ⟨h.2.2.1, h.2.2.2.2⟩

/-- C6: let the producer complete two cycles before the test of iteration
`i`, publishing `t1` and then `t2`; let nothing change the snapshot between
the test and the clear, let `led_decode_and_update` return the flag as it
found it, and let the flag not be set in the `m` iterations that follow.  Then
iteration `i` calls `led_decode_and_update` exactly once, the call finds the
latest snapshot `t2`, the flag reads 0 at the end of the iteration, and none
of the `m` following iterations calls `led_decode_and_update`. -/
theorem second_completion_is_not_queued (env : Env) (i m : Nat) (w u : World) (t1 t2 : Nat)
    (hsets : env.touch_process i w = producer_set t2 (producer_set t1 u))
    (hbetween : (env.between_test_and_clear i (env.touch_process i w)).touch =
      (env.touch_process i w).touch)
    (hdecode : flag_value (env.led_decode_and_update i (decode_entry env i w)) =
      flag_value (decode_entry env i w))
    (hlater : ∀ j x, i < j → j ≤ i + m → flag_value x = 0 →
      flag_value (env.touch_process j x) = 0) :
    tested_flag env i w = 1
      ∧ call_count Fn.led_decode_and_update (iteration_events env i w) = 1
      ∧ decoded_touch (iteration_events env i w) = [t2]
      ∧ flag_value (iteration_world env i w) = 0
      ∧ call_count Fn.led_decode_and_update
          (iterate_from env m (i + 1) { world := iteration_world env i w, trace := [] }).trace = 0
      ∧ flag_value
          (iterate_from env m (i + 1) { world := iteration_world env i w, trace := [] }).world = 0 := by
  have htest : tested_flag env i w = 1 := by
    unfold tested_flag
    rw [hsets]
    rfl
  have hend : flag_value (iteration_world env i w) = 0 := by
    rw [iteration_world_set env i w htest, hdecode]
    exact flag_value_decode_entry env i w
  have htouch : (decode_entry env i w).touch = t2 := by
    have h : (decode_entry env i w).touch =
        (env.between_test_and_clear i (env.touch_process i w)).touch := rfl
    rw [h, hbetween, hsets]
    rfl
  obtain ⟨hq1, hq2, _⟩ := quiet_iterations env 0 m (i + 1)
    { world := iteration_world env i w, trace := [] } (by decide) hend
    (fun j x hj hjm hx => hlater j x (by omega) (by omega) hx)
  refine ⟨htest, ?_, ?_, hend, ?_, hq1⟩
  · rw [iteration_events_set env i w htest]
    rfl
  · rw [iteration_events_set env i w htest]
    simp [decoded_touch, Event.decoded, htouch]
  · rw [hq2]
    rfl

theorem second_completion_is_not_queued_witness :
    call_count Fn.led_decode_and_update (iteration_events Env.double_set 0 ⟨0, 0, 0⟩) = 1
      ∧ decoded_touch (iteration_events Env.double_set 0 ⟨0, 0, 0⟩) = [2]
      ∧ call_count Fn.led_decode_and_update
          (iterate_from Env.double_set 3 1
            { world := iteration_world Env.double_set 0 ⟨0, 0, 0⟩, trace := [] }).trace = 0 :=
  have h := second_completion_is_not_queued Env.double_set 0 3 ⟨0, 0, 0⟩ ⟨0, 0, 0⟩ 1 2
    (by decide) (by decide) (by decide)
    (by
      intro j x hj _ hx
      have hj0 : j ≠ 0 := by omega
      simp [Env.double_set, hj0, hx])
  ⟨h.2.1, h.2.2.1, h.2.2.2.2.1⟩

/-- C10: the test compares the flag with 1.  Let the flag hold a value `v`
from 2 to 255 at the test of iteration `i`, and let `touch_process` leave a
flag that reads `v` at `v` in the `m` iterations that follow.  Then iteration
`i` neither calls `led_decode_and_update` nor writes the flag, which still
holds `v` at the end of the iteration; and none of the `m` following
iterations calls `led_decode_and_update` or writes the flag, which still reads
`v` after them. -/
theorem flag_other_than_one_is_ignored (env : Env) (i m : Nat) (w : World) (v : Nat)
    (h2 : 2 ≤ v) (h255 : v ≤ 255)
    (htest : (env.touch_process i w).measurement_done_touch = v)
    (hkeep : ∀ j x, i < j → j ≤ i + m → flag_value x = v →
      flag_value (env.touch_process j x) = v) :
    call_count Fn.led_decode_and_update (iteration_events env i w) = 0
      ∧ flag_writes (iteration_events env i w) = []
      ∧ (iteration_world env i w).measurement_done_touch = v
      ∧ call_count Fn.led_decode_and_update
          (iterate_from env m (i + 1) { world := iteration_world env i w, trace := [] }).trace = 0
      ∧ flag_writes
          (iterate_from env m (i + 1) { world := iteration_world env i w, trace := [] }).trace = []
      ∧ flag_value
          (iterate_from env m (i + 1) { world := iteration_world env i w, trace := [] }).world = v := by
  have hv : tested_flag env i w = v := by
    unfold tested_flag flag_value
    rw [htest]
    omega
  have hne : tested_flag env i w ≠ 1 := by omega
  have hw := iteration_world_unset env i w hne
  have hend : flag_value (iteration_world env i w) = v := by
    rw [hw]
    exact hv
  obtain ⟨hq1, hq2, hq3⟩ := quiet_iterations env v m (i + 1)
    { world := iteration_world env i w, trace := [] } (by omega) hend
    (fun j x hj hjm hx => hkeep j x (by omega) (by omega) hx)
  refine ⟨?_, ?_, ?_, ?_, ?_, hq1⟩
  · rw [iteration_events_unset env i w hne]
    rfl
  · rw [iteration_events_unset env i w hne]
    rfl
  · rw [hw]
    exact htest
  · rw [hq2]
    rfl
  · rw [hq3]
    rfl

theorem flag_other_than_one_is_ignored_witness :
    call_count Fn.led_decode_and_update (iteration_events Env.idle 0 ⟨2, 5, 0⟩) = 0
      ∧ (iteration_world Env.idle 0 ⟨2, 5, 0⟩).measurement_done_touch = 2
      ∧ flag_value
          (iterate_from Env.idle 3 1
            { world := iteration_world Env.idle 0 ⟨2, 5, 0⟩, trace := [] }).world = 2 :=
  have h := flag_other_than_one_is_ignored Env.idle 0 3 ⟨2, 5, 0⟩ 2 (by decide) (by decide)
    (by decide) (fun _ _ _ _ hx => hx)
  ⟨h.1, h.2.2.1, h.2.2.2.2.2⟩

end TouchExample
